import Mathlib

/-!
Verification of the fall-detection core of the nwhacks_2026 repository
(`src/arduino/gyro_MPU_6050_logic/gyro_MPU_6050_logic.ino`).

The sketch keeps a three-state classifier (`NORMAL`, `IMPACT_DETECTED`,
`POST_FALL`) driven once per sampling tick by the acceleration magnitude,
the L1 gyro magnitude, the fused pitch/roll estimates and the millisecond
clock, plus a complementary orientation filter.  We embed the classifier
generically over a linear ordered ring — the classifier itself performs
no division — instantiated at `ℤ` for concrete runs (with thresholds and
magnitudes scaled to integers) and at `ℝ` when the claims mention `sqrt`
or `atan2`; the orientation filter is embedded over `ℝ`.

Timestamps are modelled as `ℕ` milliseconds with truncated subtraction,
which agrees with the sketch's `unsigned long` arithmetic on the
monotone, non-wrapping runs the claims are about.
-/

section FallMachine

variable {α : Type} [LinearOrderedCommRing α]

/-- The three classifier states of the sketch's `enum FallState`. -/
inductive FallState where
  | NORMAL
  | IMPACT_DETECTED
  | POST_FALL
deriving DecidableEq, Repr

/-- The tunable `#define` parameters of the sketch. -/
structure FallParams (α : Type) where
  impactThresholdG : α
  angleThresholdDeg : α
  motionThreshold : α
  inactivityTimeMs : ℕ
  impactTimeoutMs : ℕ

/-- The mutable globals of the sketch that the classifier owns:
`state`, `impactTime`, `stillStartTime` (0 meaning "not yet still"),
`pitchBefore`, `rollBefore`. -/
structure Machine (α : Type) where
  state : FallState
  impactTime : ℕ
  stillStartTime : ℕ
  pitchBefore : α
  rollBefore : α
deriving DecidableEq

/-- The per-tick inputs consumed by the classifier `switch`:
acceleration magnitude in g, L1 gyro magnitude in rad/s, fused pitch and
roll in degrees, and the value of `millis()` for this tick. -/
structure Tick (α : Type) where
  accelMag : α
  gyroMag : α
  pitch : α
  roll : α
  now : ℕ
deriving DecidableEq

/-- The sketch's initial globals: `state = NORMAL`, all numbers zero. -/
def initMachine : Machine α := ⟨.NORMAL, 0, 0, 0, 0⟩

/-- The `abs()` used by the sketch, branch for branch. -/
def absVal (x : α) : α := if x < 0 then -x else x

theorem absVal_eq_abs (x : α) : absVal x = |x| := by
  unfold absVal
  rcases lt_trichotomy x 0 with h | h | h
  · rw [if_pos h, abs_of_neg h]
  · subst h; simp
  · rw [if_neg (not_lt.mpr h.le), abs_of_pos h]

/-- The effective stillness-timer start used by the `IMPACT_DETECTED`
branch: `stillStartTime` is set to `millis()` first when it is the
sentinel 0. -/
def effStill (m : Machine α) (now : ℕ) : ℕ :=
  if m.stillStartTime = 0 then now else m.stillStartTime

/-- The angle/stillness block of the `IMPACT_DETECTED` case (the code
before the impact-timeout check): on an angle breach with a still gyro it
starts or continues the stillness timer and triggers the fall once the
timer exceeds `INACTIVITY_TIME_MS`; a moving gyro clears the timer; no
angle breach leaves everything alone.  The `Bool` is whether
`triggerFall()` ran on this tick. -/
def stepImpactStill (p : FallParams α) (m : Machine α) (t : Tick α) :
    Machine α × Bool :=
  if absVal (t.pitch - m.pitchBefore) > p.angleThresholdDeg ∨
     absVal (t.roll - m.rollBefore) > p.angleThresholdDeg then
    if t.gyroMag < p.motionThreshold then
      if t.now - effStill m t.now > p.inactivityTimeMs then
        ({ m with state := .POST_FALL, stillStartTime := effStill m t.now }, true)
      else
        ({ m with stillStartTime := effStill m t.now }, false)
    else
      ({ m with stillStartTime := 0 }, false)
  else (m, false)

/-- One pass of the sketch's `switch (state)` for one tick.  The
`IMPACT_DETECTED` case runs the angle/stillness block first and then the
impact-timeout check, which can overwrite the state set by the block, as
in the source. -/
def stepFall (p : FallParams α) (m : Machine α) (t : Tick α) :
    Machine α × Bool :=
  match m.state with
  | .NORMAL =>
      if t.accelMag > p.impactThresholdG then
        ({ m with state := .IMPACT_DETECTED, impactTime := t.now,
                  pitchBefore := t.pitch, rollBefore := t.roll }, false)
      else (m, false)
  | .IMPACT_DETECTED =>
      if t.now - m.impactTime > p.impactTimeoutMs then
        ({ (stepImpactStill p m t).1 with state := .NORMAL, stillStartTime := 0 },
          (stepImpactStill p m t).2)
      else stepImpactStill p m t
  | .POST_FALL =>
      if t.gyroMag > p.motionThreshold * 2 then
        ({ m with state := .NORMAL, stillStartTime := 0 }, false)
      else (m, false)

/-- The stillness-confirmation condition of one `IMPACT_DETECTED` tick:
angle breach, still gyro, and the effective stillness timer older than
`INACTIVITY_TIME_MS`.  `triggerFall()` runs exactly when this holds. -/
def confirmCond (p : FallParams α) (m : Machine α) (t : Tick α) : Prop :=
  (absVal (t.pitch - m.pitchBefore) > p.angleThresholdDeg ∨
   absVal (t.roll - m.rollBefore) > p.angleThresholdDeg) ∧
  t.gyroMag < p.motionThreshold ∧
  t.now - effStill m t.now > p.inactivityTimeMs

instance (p : FallParams α) (m : Machine α) (t : Tick α) :
    Decidable (confirmCond p m t) := by
  unfold confirmCond; exact inferInstance

/-- The classifier state before tick `n` of the run that feeds the stream
`ticks` to the machine starting from `init`. -/
def machFrom (p : FallParams α) (init : Machine α) (ticks : ℕ → Tick α) :
    ℕ → Machine α
  | 0 => init
  | n + 1 => (stepFall p (machFrom p init ticks n) (ticks n)).1

/-- Whether `triggerFall()` runs on tick `n` of the run. -/
def fallEvent (p : FallParams α) (init : Machine α) (ticks : ℕ → Tick α)
    (n : ℕ) : Bool :=
  (stepFall p (machFrom p init ticks n) (ticks n)).2

/-- The L1 gyro magnitude of the sketch:
`abs(g.gyro.x) + abs(g.gyro.y) + abs(g.gyro.z)`. -/
def gyroMagOf (gx gy gz : α) : α := absVal gx + absVal gy + absVal gz

end FallMachine

/-- The sketch's `#define` values: `IMPACT_THRESHOLD_G 2.8`,
`ANGLE_THRESHOLD_DEG 45.0`, `MOTION_THRESHOLD 0.15`,
`INACTIVITY_TIME_MS 3000`, `IMPACT_TIMEOUT_MS 6000`. -/
def srcParams : FallParams ℚ :=
  ⟨2.8, 45, 0.15, 3000, 6000⟩

/-- The same configuration with the g and rad/s axes scaled by 100
(centi-g, centi-rad/s), used to run the classifier on concrete integer
inputs: acceleration and gyro magnitudes never mix with the other
quantities, so the scaling is order-faithful. -/
def wParams : FallParams ℤ :=
  ⟨280, 45, 15, 3000, 6000⟩

section Sanity

example : (stepFall wParams initMachine ⟨300, 0, 0, 0, 0⟩).1.state =
    FallState.IMPACT_DETECTED := by decide

example : (stepFall wParams ⟨.IMPACT_DETECTED, 0, 100, 0, 0⟩
    ⟨0, 0, 50, 0, 4000⟩) =
    (⟨.POST_FALL, 0, 100, 0, 0⟩, true) := by decide

example : (stepFall wParams ⟨.IMPACT_DETECTED, 0, 100, 0, 0⟩
    ⟨0, 0, 50, 0, 7000⟩) =
    (⟨.NORMAL, 0, 0, 0, 0⟩, true) := by decide

example : (stepFall wParams ⟨.POST_FALL, 0, 0, 0, 0⟩
    ⟨0, 30, 0, 0, 0⟩).1.state = FallState.POST_FALL := by decide

example : (stepFall wParams ⟨.POST_FALL, 0, 0, 0, 0⟩
    ⟨0, 31, 0, 0, 0⟩).1.state = FallState.NORMAL := by decide

end Sanity

section StepLemmas

variable {α : Type} [LinearOrderedCommRing α]
variable {p : FallParams α} {m : Machine α} {t : Tick α}

theorem stepFall_normal (hm : m.state = .NORMAL) :
    stepFall p m t =
      if t.accelMag > p.impactThresholdG then
        ({ m with state := .IMPACT_DETECTED, impactTime := t.now,
                  pitchBefore := t.pitch, rollBefore := t.roll }, false)
      else (m, false) := by
  unfold stepFall; rw [hm]

theorem stepFall_impact (hm : m.state = .IMPACT_DETECTED) :
    stepFall p m t =
      if t.now - m.impactTime > p.impactTimeoutMs then
        ({ (stepImpactStill p m t).1 with state := .NORMAL, stillStartTime := 0 },
          (stepImpactStill p m t).2)
      else stepImpactStill p m t := by
  unfold stepFall; rw [hm]

theorem stepFall_post (hm : m.state = .POST_FALL) :
    stepFall p m t =
      if t.gyroMag > p.motionThreshold * 2 then
        ({ m with state := .NORMAL, stillStartTime := 0 }, false)
      else (m, false) := by
  unfold stepFall; rw [hm]

theorem sis_noBreach
    (h : ¬(absVal (t.pitch - m.pitchBefore) > p.angleThresholdDeg ∨
           absVal (t.roll - m.rollBefore) > p.angleThresholdDeg)) :
    stepImpactStill p m t = (m, false) := by
  unfold stepImpactStill; rw [if_neg h]

theorem sis_moving
    (hb : absVal (t.pitch - m.pitchBefore) > p.angleThresholdDeg ∨
          absVal (t.roll - m.rollBefore) > p.angleThresholdDeg)
    (hg : ¬ t.gyroMag < p.motionThreshold) :
    stepImpactStill p m t = ({ m with stillStartTime := 0 }, false) := by
  unfold stepImpactStill; rw [if_pos hb, if_neg hg]

theorem sis_still_wait
    (hb : absVal (t.pitch - m.pitchBefore) > p.angleThresholdDeg ∨
          absVal (t.roll - m.rollBefore) > p.angleThresholdDeg)
    (hg : t.gyroMag < p.motionThreshold)
    (hc : ¬ t.now - effStill m t.now > p.inactivityTimeMs) :
    stepImpactStill p m t = ({ m with stillStartTime := effStill m t.now }, false) := by
  unfold stepImpactStill; rw [if_pos hb, if_pos hg, if_neg hc]

theorem sis_confirm
    (hb : absVal (t.pitch - m.pitchBefore) > p.angleThresholdDeg ∨
          absVal (t.roll - m.rollBefore) > p.angleThresholdDeg)
    (hg : t.gyroMag < p.motionThreshold)
    (hc : t.now - effStill m t.now > p.inactivityTimeMs) :
    stepImpactStill p m t =
      ({ m with state := .POST_FALL, stillStartTime := effStill m t.now }, true) := by
  unfold stepImpactStill; rw [if_pos hb, if_pos hg, if_pos hc]

theorem sis_evt_iff :
    (stepImpactStill p m t).2 = true ↔ confirmCond p m t := by
  unfold stepImpactStill confirmCond
  split_ifs with h1 h2 h3 <;> simp_all

theorem sis_frame :
    (stepImpactStill p m t).1.impactTime = m.impactTime ∧
    (stepImpactStill p m t).1.pitchBefore = m.pitchBefore ∧
    (stepImpactStill p m t).1.rollBefore = m.rollBefore := by
  unfold stepImpactStill
  split_ifs <;> simp

theorem sis_not_confirm (hc : ¬ confirmCond p m t) :
    (stepImpactStill p m t).1.state = m.state ∧
    (stepImpactStill p m t).2 = false := by
  unfold confirmCond at hc
  unfold stepImpactStill
  split_ifs with h1 h2 h3
  · exact absurd ⟨h1, h2, h3⟩ hc
  · simp
  · simp
  · simp

theorem stepFall_evt_iff (hm : m.state = .IMPACT_DETECTED) :
    (stepFall p m t).2 = true ↔ confirmCond p m t := by
  rw [stepFall_impact hm]
  split_ifs with h
  · simpa using sis_evt_iff (p := p) (m := m) (t := t)
  · exact sis_evt_iff

theorem stepFall_evt_false_of_not_impact (hm : m.state ≠ .IMPACT_DETECTED) :
    (stepFall p m t).2 = false := by
  cases hs : m.state
  · rw [stepFall_normal hs]; split_ifs <;> rfl
  · exact absurd hs hm
  · rw [stepFall_post hs]; split_ifs <;> rfl

theorem stepFall_impact_preserve (hm : m.state = .IMPACT_DETECTED) :
    (stepFall p m t).1.impactTime = m.impactTime ∧
    (stepFall p m t).1.pitchBefore = m.pitchBefore ∧
    (stepFall p m t).1.rollBefore = m.rollBefore := by
  obtain ⟨h1, h2, h3⟩ := sis_frame (p := p) (m := m) (t := t)
  rw [stepFall_impact hm]
  split_ifs <;> simp [h1, h2, h3]

theorem stepFall_impact_timeout (hm : m.state = .IMPACT_DETECTED)
    (htime : t.now - m.impactTime > p.impactTimeoutMs) :
    (stepFall p m t).1.state = .NORMAL ∧
    (stepFall p m t).1.stillStartTime = 0 := by
  rw [stepFall_impact hm, if_pos htime]; simp

theorem stepFall_impact_noTimeout (hm : m.state = .IMPACT_DETECTED)
    (htime : ¬ t.now - m.impactTime > p.impactTimeoutMs) :
    stepFall p m t = stepImpactStill p m t := by
  rw [stepFall_impact hm, if_neg htime]

theorem stepFall_enters_impact
    (h : (stepFall p m t).1.state = .IMPACT_DETECTED)
    (hm : m.state ≠ .IMPACT_DETECTED) : m.state = .NORMAL := by
  cases hs : m.state
  · rfl
  · exact absurd hs hm
  · rw [stepFall_post hs] at h
    split_ifs at h
    simp_all

theorem stepFall_evt_state (hm : m.state = .IMPACT_DETECTED)
    (hev : (stepFall p m t).2 = true) :
    (stepFall p m t).1.state ≠ .IMPACT_DETECTED := by
  have hc : confirmCond p m t := (stepFall_evt_iff hm).1 hev
  obtain ⟨h1, h2, h3⟩ := hc
  rw [stepFall_impact hm]
  split_ifs with h
  · simp
  · rw [sis_confirm h1 h2 h3]; simp

theorem machFrom_succ {init : Machine α} {ticks : ℕ → Tick α} (n : ℕ) :
    machFrom p init ticks (n + 1) =
      (stepFall p (machFrom p init ticks n) (ticks n)).1 := rfl

end StepLemmas

/-- The acceleration magnitude in g computed by the sketch:
`sqrt(x*x + y*y + z*z) / 9.81` on the raw accelerometer axes. -/
noncomputable def accelMagOf (ax ay az : ℝ) : ℝ :=
  Real.sqrt (ax * ax + ay * ay + az * az) / 9.81

/-- Claim C5: a tick processed in `NORMAL` moves the classifier to
`IMPACT_DETECTED` exactly when the acceleration magnitude — the Euclidean
norm of the acceleration vector divided by 9.81 — strictly exceeds
`impactThresholdG`; on that transition `impactTime` is set to `millis()`
and `pitchBefore`/`rollBefore` capture the current orientation; otherwise
the machine is left entirely unchanged, and no fall event is ever emitted
from `NORMAL`. -/
theorem normal_to_impact_characterization (p : FallParams ℝ) (m : Machine ℝ)
    (ax ay az gyroMag pitch roll : ℝ) (now : ℕ)
    (hm : m.state = .NORMAL) :
    ((stepFall p m ⟨accelMagOf ax ay az, gyroMag, pitch, roll, now⟩).1.state =
        .IMPACT_DETECTED ↔ accelMagOf ax ay az > p.impactThresholdG) ∧
    (accelMagOf ax ay az > p.impactThresholdG →
      (stepFall p m ⟨accelMagOf ax ay az, gyroMag, pitch, roll, now⟩).1 =
        { m with state := .IMPACT_DETECTED, impactTime := now,
                 pitchBefore := pitch, rollBefore := roll }) ∧
    (¬ accelMagOf ax ay az > p.impactThresholdG →
      stepFall p m ⟨accelMagOf ax ay az, gyroMag, pitch, roll, now⟩ = (m, false)) ∧
    (stepFall p m ⟨accelMagOf ax ay az, gyroMag, pitch, roll, now⟩).2 = false := by
  rw [stepFall_normal hm]
  split_ifs with h
  · refine ⟨iff_of_true rfl h, fun _ => rfl, fun hc => absurd h hc, rfl⟩
  · refine ⟨iff_of_false ?_ h, fun hc => absurd hc h, fun _ => rfl, rfl⟩
    simp [hm]

/-- Witness for C5: with the sketch parameters, a raw accelerometer
reading of (98.1, 0, 0) m/s² has magnitude 10 g and arms the machine. -/
theorem normal_to_impact_characterization_witness :
    (stepFall (⟨2.8, 45, 0.15, 3000, 6000⟩ : FallParams ℝ) initMachine
      ⟨accelMagOf 98.1 0 0, 0, 0, 0, 5⟩).1.state = FallState.IMPACT_DETECTED := by
  have hacc : accelMagOf 98.1 0 0 = 10 := by
    unfold accelMagOf
    rw [show (98.1 * 98.1 + 0 * 0 + 0 * 0 : ℝ) = 98.1 ^ 2 by ring]
    rw [Real.sqrt_sq (by norm_num : (0:ℝ) ≤ 98.1)]
    norm_num
  exact (normal_to_impact_characterization _ initMachine 98.1 0 0 0 0 0 5 rfl).1.mpr
    (by rw [hacc]; norm_num)

/-- Claim C6: a tick processed in `POST_FALL` returns the classifier to
`NORMAL` exactly when the L1 gyro magnitude strictly exceeds twice
`motionThreshold`; below or at that value the tick is a no-op, and a run
whose gyro magnitudes stay at or below the value keeps the state
`POST_FALL` forever. -/
theorem postfall_recovery_characterization {α : Type} [LinearOrderedCommRing α]
    (p : FallParams α) (init : Machine α) (ticks : ℕ → Tick α)
    (m : Machine α) (gx gy gz : α) (t : Tick α)
    (hm : m.state = .POST_FALL) (hg : t.gyroMag = gyroMagOf gx gy gz) :
    ((stepFall p m t).1.state = .NORMAL ↔
      gyroMagOf gx gy gz > 2 * p.motionThreshold) ∧
    (¬ gyroMagOf gx gy gz > 2 * p.motionThreshold → stepFall p m t = (m, false)) ∧
    (∀ i, (machFrom p init ticks i).state = .POST_FALL →
      (∀ k, i ≤ k → (ticks k).gyroMag ≤ 2 * p.motionThreshold) →
      ∀ j, i ≤ j → (machFrom p init ticks j).state = .POST_FALL) := by
  refine ⟨?_, ?_, ?_⟩
  · rw [stepFall_post hm]
    split_ifs with h
    · exact iff_of_true rfl (by rw [hg, mul_comm] at h; exact h)
    · refine iff_of_false ?_ (by rw [← hg, mul_comm]; exact h)
      simp [hm]
  · intro h2
    rw [stepFall_post hm, if_neg (by rw [hg, mul_comm]; exact h2)]
  · intro i hi hbound j hij
    induction j, hij using Nat.le_induction with
    | base => exact hi
    | succ j hj ih =>
        rw [machFrom_succ, stepFall_post ih,
          if_neg (not_lt.mpr (by rw [mul_comm]; exact hbound j hj))]
        exact ih

/-- Witness for C6: in the centi-scaled configuration a constant gyro
magnitude of exactly twice the motion threshold keeps the machine in
`POST_FALL` through tick 5, while an L1 magnitude of 31 centi-rad/s
releases it to `NORMAL`. -/
theorem postfall_recovery_characterization_witness :
    (machFrom wParams (⟨.POST_FALL, 0, 0, 0, 0⟩ : Machine ℤ)
      (fun _ => ⟨0, 30, 0, 0, 1000⟩) 5).state = FallState.POST_FALL ∧
    (stepFall wParams (⟨.POST_FALL, 0, 0, 0, 0⟩ : Machine ℤ)
      ⟨0, gyroMagOf 31 0 0, 0, 0, 1000⟩).1.state = FallState.NORMAL := by
  constructor
  · exact (postfall_recovery_characterization wParams ⟨.POST_FALL, 0, 0, 0, 0⟩
      (fun _ => ⟨0, 30, 0, 0, 1000⟩) ⟨.POST_FALL, 0, 0, 0, 0⟩ 0 0 0
      ⟨0, gyroMagOf 0 0 0, 0, 0, 0⟩ rfl rfl).2.2 0 rfl
      (fun k _ => by decide) 5 (by decide)
  · exact (postfall_recovery_characterization wParams ⟨.POST_FALL, 0, 0, 0, 0⟩
      (fun _ => ⟨0, 30, 0, 0, 1000⟩) ⟨.POST_FALL, 0, 0, 0, 0⟩ 31 0 0
      ⟨0, gyroMagOf 31 0 0, 0, 0, 1000⟩ rfl rfl).1.mpr (by decide)

/-- Counterexample for C2: a confirming tick moves the machine from
`IMPACT_DETECTED` to `POST_FALL` while leaving `stillStartTime = 100` and
`impactTime = 7` set, so the auxiliary fields are not reset on that
transition. -/
theorem impact_exit_fields_counterexample :
    (stepFall wParams (⟨.IMPACT_DETECTED, 7, 100, 0, 0⟩ : Machine ℤ)
      ⟨0, 0, 50, 0, 4000⟩).1.state = FallState.POST_FALL ∧
    (stepFall wParams (⟨.IMPACT_DETECTED, 7, 100, 0, 0⟩ : Machine ℤ)
      ⟨0, 0, 50, 0, 4000⟩).1.stillStartTime = 100 ∧
    (stepFall wParams (⟨.IMPACT_DETECTED, 7, 100, 0, 0⟩ : Machine ℤ)
      ⟨0, 0, 50, 0, 4000⟩).1.impactTime = 7 := by decide

/-- Claim C2 amended: a tick processed in `IMPACT_DETECTED` never resets
`impactTime`, `pitchBefore` or `rollBefore`; the timeout exit to `NORMAL`
clears only `stillStartTime`, and the confirmation exit to `POST_FALL`
leaves even `stillStartTime` at its (necessarily nonzero) value. -/
theorem impact_exit_fields_amended {α : Type} [LinearOrderedCommRing α]
    (p : FallParams α) (m : Machine α) (t : Tick α)
    (hm : m.state = .IMPACT_DETECTED) :
    (stepFall p m t).1.impactTime = m.impactTime ∧
    (stepFall p m t).1.pitchBefore = m.pitchBefore ∧
    (stepFall p m t).1.rollBefore = m.rollBefore ∧
    ((stepFall p m t).1.state = .NORMAL → (stepFall p m t).1.stillStartTime = 0) ∧
    ((stepFall p m t).1.state = .POST_FALL →
      (stepFall p m t).1.stillStartTime = m.stillStartTime ∧
      m.stillStartTime ≠ 0) := by
  obtain ⟨h1, h2, h3⟩ := stepFall_impact_preserve (t := t) hm
  refine ⟨h1, h2, h3, ?_, ?_⟩
  · rw [stepFall_impact hm]
    split_ifs with htime
    · intro _; rfl
    · intro hst
      by_cases hc : confirmCond p m t
      · obtain ⟨b1, b2, b3⟩ := hc
        rw [sis_confirm b1 b2 b3] at hst
        exact absurd hst (by simp)
      · rw [(sis_not_confirm hc).1, hm] at hst
        exact absurd hst (by simp)
  · rw [stepFall_impact hm]
    split_ifs with htime
    · intro hst
      exact absurd hst (by simp)
    · intro hst
      by_cases hc : confirmCond p m t
      · obtain ⟨b1, b2, b3⟩ := hc
        have hne : m.stillStartTime ≠ 0 := by
          intro h0
          unfold effStill at b3
          rw [if_pos h0] at b3
          omega
        have heff : effStill m t.now = m.stillStartTime := by
          unfold effStill; rw [if_neg hne]
        rw [sis_confirm b1 b2 b3]
        exact ⟨by simp [heff], hne⟩
      · rw [(sis_not_confirm hc).1, hm] at hst
        exact absurd hst (by simp)

/-- Witness for the amended C2: a confirming tick preserves a nonzero
`impactTime`. -/
theorem impact_exit_fields_amended_witness :
    (stepFall wParams (⟨.IMPACT_DETECTED, 7, 100, 0, 0⟩ : Machine ℤ)
      ⟨0, 0, 50, 0, 4200⟩).1.impactTime = 7 :=
  (impact_exit_fields_amended wParams ⟨.IMPACT_DETECTED, 7, 100, 0, 0⟩
    ⟨0, 0, 50, 0, 4200⟩ rfl).1

/-- Claim C4: while in `IMPACT_DETECTED`, a tick with the angle condition
holding but the gyro magnitude at or above `motionThreshold` clears
`stillStartTime` and emits nothing; within the impact window the machine
stays armed, and on a machine whose timer is cleared the next still tick
emits nothing and restarts the timer at its own timestamp, so the
inactivity countdown restarts from scratch. -/
theorem stillness_timer_restart {α : Type} [LinearOrderedCommRing α]
    (p : FallParams α) (m : Machine α) (t : Tick α)
    (hm : m.state = .IMPACT_DETECTED)
    (hb : absVal (t.pitch - m.pitchBefore) > p.angleThresholdDeg ∨
          absVal (t.roll - m.rollBefore) > p.angleThresholdDeg)
    (hg : p.motionThreshold ≤ t.gyroMag) :
    (stepFall p m t).1.stillStartTime = 0 ∧
    (stepFall p m t).2 = false ∧
    (¬ t.now - m.impactTime > p.impactTimeoutMs →
      (stepFall p m t).1.state = .IMPACT_DETECTED) ∧
    (∀ m' : Machine α, ∀ t' : Tick α, m'.state = .IMPACT_DETECTED →
      m'.stillStartTime = 0 →
      (absVal (t'.pitch - m'.pitchBefore) > p.angleThresholdDeg ∨
       absVal (t'.roll - m'.rollBefore) > p.angleThresholdDeg) →
      t'.gyroMag < p.motionThreshold →
      (stepFall p m' t').2 = false ∧
      (¬ t'.now - m'.impactTime > p.impactTimeoutMs →
        (stepFall p m' t').1.stillStartTime = t'.now)) := by
  have hsis := sis_moving (p := p) (m := m) (t := t) hb (not_lt.mpr hg)
  refine ⟨?_, ?_, ?_, ?_⟩
  · rw [stepFall_impact hm]
    split_ifs with htime
    · rfl
    · rw [hsis]
  · rw [stepFall_impact hm]
    split_ifs with htime <;> rw [hsis]
  · intro htime
    rw [stepFall_impact_noTimeout hm htime, hsis]
    exact hm
  · intro m' t' hm' hss' hb' hg'
    have heff : effStill m' t'.now = t'.now := by
      unfold effStill; rw [if_pos hss']
    have hnc : ¬ confirmCond p m' t' := by
      intro hc
      have := hc.2.2
      rw [heff] at this
      omega
    constructor
    · rcases Bool.eq_false_or_eq_true (stepFall p m' t').2 with h | h
      · exact absurd ((stepFall_evt_iff hm').1 h) hnc
      · exact h
    · intro htime'
      rw [stepFall_impact_noTimeout hm' htime',
        sis_still_wait hb' hg' (by rw [heff]; omega), heff]

/-- Stream for the C4 witness: impact at t=0, stillness from t=500, a
gyro spike at t=2000, stillness again from t=2100 (gyro axis scaled to
centi-rad/s). -/
def c4ticks : ℕ → Tick ℤ
  | 0 => ⟨300, 0, 0, 0, 0⟩
  | 1 => ⟨0, 5, 50, 0, 500⟩
  | 2 => ⟨0, 50, 50, 0, 2000⟩
  | 3 => ⟨0, 5, 50, 0, 2100⟩
  | 4 => ⟨0, 5, 50, 0, 3500⟩
  | 5 => ⟨0, 5, 50, 0, 5200⟩
  | _ => ⟨0, 0, 0, 0, 6000⟩

/-- Witness for C4: after the spike at t=2000 the timer is cleared, so no
fall is confirmed at t=3500 (which would be 3000 ms past the original
t=500 start) and the fall is confirmed only at t=5200. -/
theorem stillness_timer_restart_witness :
    (machFrom wParams initMachine c4ticks 3).stillStartTime = 0 ∧
    fallEvent wParams initMachine c4ticks 4 = false ∧
    fallEvent wParams initMachine c4ticks 5 = true := by
  refine ⟨?_, by decide, by decide⟩
  exact (stillness_timer_restart wParams (machFrom wParams initMachine c4ticks 2)
    (c4ticks 2) (by decide) (by decide) (by decide)).1

/-- Claim C9: on an `IMPACT_DETECTED` tick where the stillness
confirmation and the impact timeout both fire, `triggerFall()` runs and
the subsequently evaluated timeout check overwrites the state, so the
tick ends in `NORMAL` with `stillStartTime` cleared, not in `POST_FALL`. -/
theorem simultaneous_confirm_timeout_order {α : Type} [LinearOrderedCommRing α]
    (p : FallParams α) (m : Machine α) (t : Tick α)
    (hm : m.state = .IMPACT_DETECTED)
    (hb : absVal (t.pitch - m.pitchBefore) > p.angleThresholdDeg ∨
          absVal (t.roll - m.rollBefore) > p.angleThresholdDeg)
    (hg : t.gyroMag < p.motionThreshold)
    (hss : m.stillStartTime ≠ 0)
    (hconf : t.now - m.stillStartTime > p.inactivityTimeMs)
    (htime : t.now - m.impactTime > p.impactTimeoutMs) :
    (stepFall p m t).2 = true ∧
    (stepFall p m t).1.state = .NORMAL ∧
    (stepFall p m t).1.stillStartTime = 0 := by
  have heff : effStill m t.now = m.stillStartTime := by
    unfold effStill; rw [if_neg hss]
  have hc : t.now - effStill m t.now > p.inactivityTimeMs := by
    rw [heff]; exact hconf
  rw [stepFall_impact hm, if_pos htime, sis_confirm hb hg hc]
  exact ⟨rfl, rfl, rfl⟩

/-- Witness for C9: both conditions fire at t=7000 after an impact at
t=0 with stillness since t=100; the fall event is emitted and the tick
ends in `NORMAL`. -/
theorem simultaneous_confirm_timeout_order_witness :
    (stepFall wParams (⟨.IMPACT_DETECTED, 0, 100, 0, 0⟩ : Machine ℤ)
      ⟨0, 0, 50, 0, 7000⟩).2 = true ∧
    (stepFall wParams (⟨.IMPACT_DETECTED, 0, 100, 0, 0⟩ : Machine ℤ)
      ⟨0, 0, 50, 0, 7000⟩).1.state = FallState.NORMAL ∧
    (stepFall wParams (⟨.IMPACT_DETECTED, 0, 100, 0, 0⟩ : Machine ℤ)
      ⟨0, 0, 50, 0, 7000⟩).1.stillStartTime = 0 :=
  simultaneous_confirm_timeout_order wParams ⟨.IMPACT_DETECTED, 0, 100, 0, 0⟩
    ⟨0, 0, 50, 0, 7000⟩ rfl (by decide) (by decide) (by decide)
    (by decide) (by decide)

/-- Counterexample for C10: on a tick in `IMPACT_DETECTED` where the
angle condition does not hold but the impact timeout has elapsed,
`stillStartTime` is cleared from 100 to 0, not left unchanged. -/
theorem no_breach_timeout_counterexample :
    (stepFall wParams (⟨.IMPACT_DETECTED, 0, 100, 0, 0⟩ : Machine ℤ)
      ⟨0, 0, 0, 0, 7000⟩).1.stillStartTime = 0 ∧
    (⟨.IMPACT_DETECTED, 0, 100, 0, 0⟩ : Machine ℤ).stillStartTime = 100 := by
  decide

/-- Claim C10 amended: while in `IMPACT_DETECTED`, a tick on which the
angle condition does not hold is a complete no-op provided the impact
timeout has not elapsed (in particular `stillStartTime` keeps running);
if the timeout has elapsed the tick exits to `NORMAL` and clears the
timer.  A later tick with the angle condition holding and a still gyro
confirms counting from the original `stillStartTime`. -/
theorem no_breach_frame_amended {α : Type} [LinearOrderedCommRing α]
    (p : FallParams α) (m : Machine α) (t : Tick α)
    (hm : m.state = .IMPACT_DETECTED)
    (hb : ¬(absVal (t.pitch - m.pitchBefore) > p.angleThresholdDeg ∨
            absVal (t.roll - m.rollBefore) > p.angleThresholdDeg)) :
    (¬ t.now - m.impactTime > p.impactTimeoutMs → stepFall p m t = (m, false)) ∧
    (t.now - m.impactTime > p.impactTimeoutMs →
      (stepFall p m t).1.state = .NORMAL ∧
      (stepFall p m t).1.stillStartTime = 0) ∧
    (∀ t' : Tick α,
      (absVal (t'.pitch - m.pitchBefore) > p.angleThresholdDeg ∨
       absVal (t'.roll - m.rollBefore) > p.angleThresholdDeg) →
      t'.gyroMag < p.motionThreshold →
      m.stillStartTime ≠ 0 →
      ((stepFall p m t').2 = true ↔
        t'.now - m.stillStartTime > p.inactivityTimeMs)) := by
  refine ⟨?_, ?_, ?_⟩
  · intro htime
    rw [stepFall_impact_noTimeout hm htime, sis_noBreach hb]
  · intro htime
    exact stepFall_impact_timeout hm htime
  · intro t' hb' hg' hss
    have heff : effStill m t'.now = m.stillStartTime := by
      unfold effStill; rw [if_neg hss]
    rw [stepFall_evt_iff hm]
    unfold confirmCond
    rw [heff]
    constructor
    · intro hc; exact hc.2.2
    · intro hc; exact ⟨hb', hg', hc⟩

/-- Witness for the amended C10: a no-breach tick inside the impact
window changes nothing, and a later breached still tick confirms relative
to the original timer start t=700. -/
theorem no_breach_frame_amended_witness :
    stepFall wParams (⟨.IMPACT_DETECTED, 0, 700, 0, 0⟩ : Machine ℤ)
      ⟨0, 0, 0, 0, 1000⟩ = (⟨.IMPACT_DETECTED, 0, 700, 0, 0⟩, false) ∧
    (stepFall wParams (⟨.IMPACT_DETECTED, 0, 700, 0, 0⟩ : Machine ℤ)
      ⟨0, 5, 50, 0, 4000⟩).2 = true := by
  constructor
  · exact (no_breach_frame_amended wParams ⟨.IMPACT_DETECTED, 0, 700, 0, 0⟩
      ⟨0, 0, 0, 0, 1000⟩ rfl (by decide)).1 (by decide)
  · exact ((no_breach_frame_amended wParams ⟨.IMPACT_DETECTED, 0, 700, 0, 0⟩
      ⟨0, 0, 0, 0, 1000⟩ rfl (by decide)).2.2 ⟨0, 5, 50, 0, 4000⟩
      (by decide) (by decide) (by decide)).mpr (by decide)

/-- While no confirmation fires and the clock stays within the impact
window, the machine stays in `IMPACT_DETECTED` with its `impactTime`
unchanged. -/
theorem impact_persists {α : Type} [LinearOrderedCommRing α]
    (p : FallParams α) (init : Machine α) (ticks : ℕ → Tick α) (i T : ℕ)
    (h0 : (machFrom p init ticks i).state = .IMPACT_DETECTED)
    (hT : (machFrom p init ticks i).impactTime = T) :
    ∀ j, i ≤ j →
      (∀ k, i ≤ k → k < j → ¬ confirmCond p (machFrom p init ticks k) (ticks k)) →
      (∀ k, i ≤ k → k < j → (ticks k).now ≤ T + p.impactTimeoutMs) →
      (machFrom p init ticks j).state = .IMPACT_DETECTED ∧
      (machFrom p init ticks j).impactTime = T := by
  intro j hij
  induction j, hij using Nat.le_induction with
  | base => exact fun _ _ => ⟨h0, hT⟩
  | succ j hj ih =>
      intro hconf htime
      obtain ⟨hs, hT'⟩ := ih (fun k a b => hconf k a (by omega))
        (fun k a b => htime k a (by omega))
      have hnt : ¬ (ticks j).now - (machFrom p init ticks j).impactTime >
          p.impactTimeoutMs := by
        rw [hT']
        have := htime j hj (by omega)
        omega
      have hnc := hconf j hj (by omega)
      rw [machFrom_succ, stepFall_impact_noTimeout hs hnt]
      exact ⟨by rw [(sis_not_confirm hnc).1]; exact hs,
             by rw [sis_frame.1]; exact hT'⟩

/-- Claim C3: if the machine is in `IMPACT_DETECTED` at tick i with
`impactTime = T` and the stillness confirmation never fires through the
first tick j whose clock passes `T + impactTimeoutMs`, then after tick j
the state is `NORMAL` and no fall event was emitted on any tick of the
window. -/
theorem impact_timeout_unconfirmed_normal {α : Type} [LinearOrderedCommRing α]
    (p : FallParams α) (init : Machine α) (ticks : ℕ → Tick α) (i j T : ℕ)
    (h0 : (machFrom p init ticks i).state = .IMPACT_DETECTED)
    (hT : (machFrom p init ticks i).impactTime = T)
    (hij : i ≤ j)
    (hconf : ∀ k, i ≤ k → k ≤ j → ¬ confirmCond p (machFrom p init ticks k) (ticks k))
    (hwin : ∀ k, i ≤ k → k < j → (ticks k).now ≤ T + p.impactTimeoutMs)
    (hj : (ticks j).now > T + p.impactTimeoutMs) :
    (machFrom p init ticks (j + 1)).state = .NORMAL ∧
    (∀ k, i ≤ k → k ≤ j → fallEvent p init ticks k = false) := by
  have hpers := impact_persists p init ticks i T h0 hT
  obtain ⟨hsj, hTj⟩ := hpers j hij (fun k a b => hconf k a (by omega)) hwin
  constructor
  · rw [machFrom_succ]
    exact (stepFall_impact_timeout hsj (by rw [hTj]; omega)).1
  · intro k hk1 hk2
    obtain ⟨hsk, _⟩ := hpers k hk1 (fun k2 a b => hconf k2 a (by omega))
      (fun k2 a b => hwin k2 a (by omega))
    unfold fallEvent
    refine Bool.eq_false_iff.mpr (fun hev => hconf k hk1 hk2 ?_)
    exact (stepFall_evt_iff hsk).1 hev

/-- Stream for the C3 witness: an impact at t=0 then quiet ticks with no
angle breach; tick 3 is the first past the 6000 ms window. -/
def c3ticks : ℕ → Tick ℤ
  | 0 => ⟨300, 0, 0, 0, 0⟩
  | 1 => ⟨0, 0, 0, 0, 1000⟩
  | 2 => ⟨0, 0, 0, 0, 5000⟩
  | 3 => ⟨0, 0, 0, 0, 7000⟩
  | _ => ⟨0, 0, 0, 0, 8000⟩

/-- Witness for C3: the unconfirmed impact episode starting at tick 1
ends in `NORMAL` after tick 3 and emits nothing at tick 2. -/
theorem impact_timeout_unconfirmed_normal_witness :
    (machFrom wParams initMachine c3ticks 4).state = FallState.NORMAL ∧
    fallEvent wParams initMachine c3ticks 2 = false := by
  have H := impact_timeout_unconfirmed_normal wParams initMachine c3ticks 1 3 0
    (by decide) (by decide) (by decide)
    (by intro k h1 h2; interval_cases k <;> decide)
    (by intro k h1 h2; interval_cases k <;> decide)
    (by decide)
  exact ⟨H.1, H.2 2 (by decide) (by decide)⟩

/-- A run that is out of `IMPACT_DETECTED` at tick a and back in it at
tick b must pass through a `NORMAL` pre-state in between, because
`IMPACT_DETECTED` is entered only from `NORMAL`. -/
theorem run_reaches_impact_via_normal {α : Type} [LinearOrderedCommRing α]
    (p : FallParams α) (init : Machine α) (ticks : ℕ → Tick α) :
    ∀ b a, a ≤ b → (machFrom p init ticks a).state ≠ .IMPACT_DETECTED →
      (machFrom p init ticks b).state = .IMPACT_DETECTED →
      ∃ k, a ≤ k ∧ k < b ∧ (machFrom p init ticks k).state = .NORMAL := by
  intro b
  induction b with
  | zero =>
      intro a ha hne h0
      have : a = 0 := by omega
      subst this
      exact absurd h0 hne
  | succ b ih =>
      intro a ha hne hb
      have hab : a ≤ b := by
        by_contra hcon
        have : a = b + 1 := by omega
        subst this
        exact hne hb
      by_cases hbs : (machFrom p init ticks b).state = .IMPACT_DETECTED
      · obtain ⟨k, h1, h2, h3⟩ := ih a hab hne hbs
        exact ⟨k, h1, by omega, h3⟩
      · rw [machFrom_succ] at hb
        exact ⟨b, hab, by omega, stepFall_enters_impact hb hbs⟩

/-- Claim C1: every emitted fall event is the confirmation of an
`IMPACT_DETECTED` pre-state and leaves `IMPACT_DETECTED` (so an episode
emits at most one event, and an episode that only times out emits none);
two events in one run are separated by a `NORMAL` pre-state, i.e. by
re-arming through a fresh impact episode. -/
theorem fall_event_once_per_episode {α : Type} [LinearOrderedCommRing α]
    (p : FallParams α) (init : Machine α) (ticks : ℕ → Tick α) :
    (∀ n, fallEvent p init ticks n = true →
      (machFrom p init ticks n).state = .IMPACT_DETECTED ∧
      confirmCond p (machFrom p init ticks n) (ticks n) ∧
      (machFrom p init ticks (n + 1)).state ≠ .IMPACT_DETECTED) ∧
    (∀ i j, i < j → fallEvent p init ticks i = true →
      fallEvent p init ticks j = true →
      ∃ k, i < k ∧ k ≤ j ∧ (machFrom p init ticks k).state = .NORMAL) := by
  have evt_facts : ∀ n, fallEvent p init ticks n = true →
      (machFrom p init ticks n).state = .IMPACT_DETECTED ∧
      confirmCond p (machFrom p init ticks n) (ticks n) ∧
      (machFrom p init ticks (n + 1)).state ≠ .IMPACT_DETECTED := by
    intro n hev
    have hst : (machFrom p init ticks n).state = .IMPACT_DETECTED := by
      by_contra hne
      unfold fallEvent at hev
      rw [stepFall_evt_false_of_not_impact hne] at hev
      simp at hev
    refine ⟨hst, (stepFall_evt_iff hst).1 hev, ?_⟩
    rw [machFrom_succ]
    exact stepFall_evt_state hst hev
  refine ⟨evt_facts, ?_⟩
  intro i j hij hevi hevj
  obtain ⟨k, h1, h2, h3⟩ := run_reaches_impact_via_normal p init ticks j (i + 1)
    (by omega) (evt_facts i hevi).2.2 (evt_facts j hevj).1
  exact ⟨k, by omega, by omega, h3⟩

/-- Stream for the C1 witness: two full fall episodes — impact at t=0
confirmed at t=3500, recovery at t=3600, a second impact at t=3700
confirmed at t=6900. -/
def c1ticks : ℕ → Tick ℤ
  | 0 => ⟨300, 0, 0, 0, 0⟩
  | 1 => ⟨0, 0, 50, 0, 100⟩
  | 2 => ⟨0, 0, 50, 0, 3500⟩
  | 3 => ⟨0, 100, 0, 0, 3600⟩
  | 4 => ⟨300, 0, 0, 0, 3700⟩
  | 5 => ⟨0, 0, 50, 0, 3800⟩
  | 6 => ⟨0, 0, 50, 0, 6900⟩
  | _ => ⟨0, 0, 0, 0, 7000⟩

/-- Witness for C1: the run with fall events at ticks 2 and 6 passes a
`NORMAL` pre-state in between. -/
theorem fall_event_once_per_episode_witness :
    ∃ k, 2 < k ∧ k ≤ 6 ∧
      (machFrom wParams initMachine c1ticks k).state = FallState.NORMAL :=
  (fall_event_once_per_episode wParams initMachine c1ticks).2 2 6
    (by decide) (by decide) (by decide)

/-- Two-argument arctangent with the C library's quadrant conventions,
as called by the sketch (`atan2(y, x)`). -/
noncomputable def atan2 (y x : ℝ) : ℝ :=
  if 0 < x then Real.arctan (y / x)
  else if x < 0 then
    (if 0 ≤ y then Real.arctan (y / x) + Real.pi
     else Real.arctan (y / x) - Real.pi)
  else if 0 < y then Real.pi / 2
  else if y < 0 then -(Real.pi / 2)
  else 0

/-- `pitchAcc` of the sketch:
`atan2(ax, sqrt(ay*ay + az*az)) * 57.2958`. -/
noncomputable def pitchAccOf (ax ay az : ℝ) : ℝ :=
  atan2 ax (Real.sqrt (ay * ay + az * az)) * 57.2958

/-- `rollAcc` of the sketch: `atan2(ay, az) * 57.2958`. -/
noncomputable def rollAccOf (ay az : ℝ) : ℝ := atan2 ay az * 57.2958

/-- The fused pitch/roll pair maintained by the sketch. -/
structure OrientationEst where
  pitch : ℝ
  roll : ℝ

/-- One update of the sketch's complementary filter:
`pitch = 0.98 * (pitch + g.gyro.y * dt * 57.2958) + 0.02 * pitchAcc` and
symmetrically for roll with `g.gyro.x`. -/
noncomputable def filterStep (o : OrientationEst) (ax ay az gx gy dt : ℝ) :
    OrientationEst :=
  ⟨0.98 * (o.pitch + gy * dt * 57.2958) + 0.02 * pitchAccOf ax ay az,
   0.98 * (o.roll + gx * dt * 57.2958) + 0.02 * rollAccOf ay az⟩

/-- The spec's accelerometer tilt formula for pitch, with the
radian-to-degree conversion constant `c` left as a parameter. -/
noncomputable def specTiltPitch (c ax ay az : ℝ) : ℝ :=
  atan2 ax (Real.sqrt (ay * ay + az * az)) * c

/-- The spec's accelerometer tilt formula for roll. -/
noncomputable def specTiltRoll (c ay az : ℝ) : ℝ := atan2 ay az * c

/-- The spec's gyro integration step: `prev + rate·dt·c`. -/
noncomputable def specIntegrate (prev rate dt c : ℝ) : ℝ := prev + rate * dt * c

/-- The spec's fixed-weight complementary fusion:
`0.98·gyroEstimate + 0.02·accEstimate`. -/
noncomputable def specFuse (g a : ℝ) : ℝ := 0.98 * g + 0.02 * a

/-- The orientation update exactly as §4.1 of the spec decomposes it,
parameterized by the conversion constant `c` (the spec writes `180/π`,
the sketch uses the rounded literal `57.2958`). -/
noncomputable def specOrientationUpdate (c : ℝ) (o : OrientationEst)
    (ax ay az gx gy dt : ℝ) : OrientationEst :=
  ⟨specFuse (specIntegrate o.pitch gy dt c) (specTiltPitch c ax ay az),
   specFuse (specIntegrate o.roll gx dt c) (specTiltRoll c ay az)⟩

/-- Counterexample for C7: at the sample ax=1, ay=az=0 (and zero rates)
the sketch's pitch update differs from the spec's formula with the exact
conversion constant `180/π`, because `57.2958 ≠ 180/π`. -/
theorem orientation_constant_counterexample :
    (filterStep ⟨0, 0⟩ 1 0 0 0 0 1).pitch ≠
      (specOrientationUpdate (180 / Real.pi) ⟨0, 0⟩ 1 0 0 0 0 1).pitch := by
  have hat : atan2 1 (Real.sqrt (0 * 0 + 0 * 0)) = Real.pi / 2 := by
    rw [show (0 * 0 + 0 * 0 : ℝ) = 0 by ring, Real.sqrt_zero]
    unfold atan2
    rw [if_neg (lt_irrefl 0), if_neg (lt_irrefl 0), if_pos one_pos]
  simp only [filterStep, specOrientationUpdate, specFuse, specIntegrate,
    specTiltPitch, pitchAccOf, hat]
  have hR : 0.98 * ((0:ℝ) + 0 * 1 * (180 / Real.pi)) +
      0.02 * (Real.pi / 2 * (180 / Real.pi)) = 1.8 := by
    have hne : Real.pi ≠ 0 := Real.pi_ne_zero
    field_simp
    ring
  rw [hR]
  have hgt : (1.8:ℝ) < 0.98 * (0 + 0 * 1 * 57.2958) +
      0.02 * (Real.pi / 2 * 57.2958) := by
    nlinarith [Real.pi_gt_d6]
  exact ne_of_gt hgt

/-- Claim C7 amended: for every sample and every `dt > 0` one filter
update computes exactly the spec's three steps — trigonometric tilt
formulas, gyro integration into the previous estimate, 0.98/0.02
complementary fusion — with the conversion constant 57.2958 (the
sketch's rounded value of 180/π) in place of the exact 180/π. -/
theorem orientation_update_spec_shape (o : OrientationEst)
    (ax ay az gx gy dt : ℝ) (hdt : 0 < dt) :
    filterStep o ax ay az gx gy dt =
      specOrientationUpdate 57.2958 o ax ay az gx gy dt := by
  unfold filterStep specOrientationUpdate specFuse specIntegrate
    specTiltPitch specTiltRoll pitchAccOf rollAccOf
  rfl

/-- Witness for the amended C7 at the zero sample with dt = 1. -/
theorem orientation_update_spec_shape_witness :
    filterStep ⟨0, 0⟩ 0 0 0 0 0 1 =
      specOrientationUpdate 57.2958 ⟨0, 0⟩ 0 0 0 0 0 1 :=
  orientation_update_spec_shape ⟨0, 0⟩ 0 0 0 0 0 1 one_pos

/-- The two behaviors the sketch's `setup()` can exhibit after
`mpu.begin()`: fall through into the `loop()` cadence, or — on failure —
print a message and spin in `while (1);` forever, never returning
control. -/
inductive SetupOutcome where
  | enterControlLoop
  | hangForever
deriving DecidableEq

/-- The outcome of the sketch's `setup()` as a function of whether
`mpu.begin()` succeeded: `if (!mpu.begin()) { ...; while (1); }`. -/
def setupOutcome (mpuBeginOk : Bool) : SetupOutcome :=
  if mpuBeginOk then .enterControlLoop else .hangForever

/-- Counterexample for C8: when `mpu.begin()` fails the sketch hangs in
an internal infinite loop; no error is surfaced to a caller, because
control never returns at all. -/
theorem setup_failure_counterexample :
    setupOutcome false = SetupOutcome.hangForever ∧
    SetupOutcome.hangForever ≠ SetupOutcome.enterControlLoop := by decide

/-- Claim C8 amended: on initialization failure the sketch never enters
the control loop — that half of the claim holds — but instead of
surfacing the failure it loops forever internally. -/
theorem setup_failure_amended :
    ∀ ok : Bool,
      (setupOutcome ok = SetupOutcome.enterControlLoop ↔ ok = true) ∧
      (setupOutcome ok = SetupOutcome.hangForever ↔ ok = false) := by decide
